import Mathlib

/-!
Verification of the Moltly agent relay server.

Shallow embedding of `src/server/scripts/agent_server.js` and the
signing function of `src/server/scripts/moltly_agent_bot.js`.
Strings handed to the keyed hash are modelled as lists of UTF-16 code
units (what `charCodeAt` yields); JS 32-bit signed integer wrap-around
is modelled explicitly on `Int`.
-/

namespace Scape

/-- JS `x & x` / `x << n` coercion to a signed 32-bit integer. -/
def toInt32 (z : Int) : Int := (z + 2 ^ 31) % 2 ^ 32 - 2 ^ 31

/-- One iteration of the loop body of `signChallenge`:
`hash = ((hash << 5) - hash) + char; hash = hash & hash`. -/
def hashStep (h : Int) (c : Nat) : Int := toInt32 (toInt32 (h * 32) - h + c)

/-- The accumulated hash over the code units of `challenge + key`. -/
def signHash (combined : List Nat) : Int := combined.foldl hashStep 0

/-- JS `Number.prototype.toString(16)` on an integer-valued number:
a minus sign for negatives, lowercase hex digits of the absolute value. -/
def intToHexString (z : Int) : String :=
  if z < 0 then "-" ++ String.mk (Nat.toDigits 16 z.natAbs)
  else String.mk (Nat.toDigits 16 z.toNat)

/-- `signChallenge(challenge, key)` from `agent_server.js` (lines 25-34). -/
def signChallenge (challenge key : List Nat) : String :=
  intToHexString (signHash (challenge ++ key))

/-- `verifyChallenge(challenge, response, accessKey)` from `agent_server.js`
(lines 36-38). -/
def verifyChallenge (challenge : List Nat) (response : String) (accessKey : List Nat) : Bool :=
  response == signChallenge challenge accessKey

namespace Bot

/-- `signChallenge(challenge, key)` from `moltly_agent_bot.js` (lines 21-30),
textually the same algorithm as the server one. -/
def signChallenge (challenge key : List Nat) : String :=
  Scape.intToHexString (Scape.signHash (challenge ++ key))

end Bot

/-- C1: for every challenge and secret, verifying the signature produced by
the server `signChallenge` succeeds; the same holds for a response produced
by the bot `signChallenge`, because the two functions are extensionally
(indeed definitionally) equal. -/
theorem sign_verify_roundtrip :
    (∀ challenge secret : List Nat,
      verifyChallenge challenge (signChallenge challenge secret) secret = true) ∧
    (∀ challenge secret : List Nat,
      verifyChallenge challenge (Bot.signChallenge challenge secret) secret = true) ∧
    Bot.signChallenge = signChallenge := by
  refine ⟨?_, ?_, rfl⟩ <;>
    · intro challenge secret
      simp [verifyChallenge, signChallenge, Bot.signChallenge]

/-! ## Server state model

Sockets are identified by natural numbers; `openSockets` lists the ids whose
`readyState` is `OPEN`.  The `agents` map (JS `Map`) is an association list.
Per-connection mutable variables of the `connection` closure
(`agentId`, `role`, `lastPing`, `rateCount`) form a `Conn` record.
Nondeterministic inputs of the code (clock reads, random ids and keys) are
passed in as explicit arguments. -/

/-- A connection role: the JS strings `game` / `agent` once assigned. -/
inductive Role
| game
| agent
deriving DecidableEq

/-- One registry entry of the `agents` map (built at `/api/agents/register`,
lines 91-96). -/
structure Agent where
  accessKey : List Nat
  created : Nat
  gameWs : Option Nat
  agentWs : Option Nat
deriving DecidableEq

/-- A parsed incoming JSON message, restricted to the fields the server
inspects; `rest` stands for all other fields, carried along opaquely so that
forwarding a value verbatim is observable. -/
structure Data where
  type : Option String := none
  agentId : Option String := none
  challenge : List Nat := []
  response : String := ""
  role : Option String := none
  steer : Option Int := none
  jump : Option Bool := none
  rest : List (String × String) := []
deriving DecidableEq

/-- The JS object spread of line 207 (a literal whose first entry sets the
tag `action`, then spreads `data`): the spread comes after the tag entry, so
an existing `type` field of `data` overrides the `action` tag; only a
message without a `type` field ends up tagged `action`. -/
def wrapAction (d : Data) : Data :=
  { d with type := some (d.type.getD "action") }

/-- Process-wide server state: the `agents` map, `totalConnections`,
the shared rate-window clock, and which sockets are open. -/
structure ServerState where
  agents : List (String × Agent)
  totalConnections : Int
  lastRateLimitReset : Nat
  openSockets : List Nat
deriving DecidableEq

/-- Per-connection state of the `connection` handler closure
(lines 133-136). -/
structure Conn where
  agentId : Option String := none
  role : Option Role := none
  lastPing : Nat := 0
  rateN : Nat := 0
deriving DecidableEq

/-- A message the server writes to a socket. -/
inductive ServerMsg
| authFailure
| authSuccess (sessionId : String) (r : Role)
| payload (d : Data)
deriving DecidableEq

/-- An observable side effect of a handler invocation. -/
inductive Effect
| sent (sock : Nat) (msg : ServerMsg)
| closed (sock : Nat) (code : Nat)
deriving DecidableEq

/-- `agents.get(k)` on the association-list model of the JS `Map`. -/
def mget (m : List (String × Agent)) (k : String) : Option Agent :=
  match m with
  | [] => none
  | (k₂, v) :: r => if k₂ = k then some v else mget r k

/-- `agents.set(k, v)`: replaces the entry for an existing key, else appends. -/
def mset (m : List (String × Agent)) (k : String) (v : Agent) : List (String × Agent) :=
  match m with
  | [] => [(k, v)]
  | (k₂, w) :: r => if k₂ = k then (k₂, v) :: r else (k₂, w) :: mset r k v

/-- `closeSafe(ws, code)` (lines 40-44): closes the socket only when its
`readyState` is `OPEN`. -/
def closeSafe (st : ServerState) (sock : Nat) (code : Nat) : ServerState × List Effect :=
  if sock ∈ st.openSockets then
    ({ st with openSockets := st.openSockets.erase sock }, [Effect.closed sock code])
  else (st, [])

/-- Default `RATE_LIMIT_GAME` (line 17). -/
def RATE_LIMIT_GAME : Nat := 25

/-- Default `RATE_LIMIT_AGENT` (line 18). -/
def RATE_LIMIT_AGENT : Nat := 65

/-- The per-socket message handler (lines 151-213).  Arguments: the rate
ceilings, current server and connection state, the receiving socket id, the
clock value `now`, the parse result of the raw bytes (`none` = JSON parse
threw), and the fresh `crypto.randomUUID()` value used on auth success.
Returns the new server state, the new connection state, and the effects. -/
def handleMessage (rlGame rlAgent : Nat) (st : ServerState) (c : Conn) (ws : Nat)
    (now : Nat) (raw : Option Data) (freshSession : String) :
    ServerState × Conn × List Effect :=
  let st1 := if 1000 < now - st.lastRateLimitReset then { st with lastRateLimitReset := now } else st
  let c1 := if 1000 < now - st.lastRateLimitReset then { c with rateN := 0 } else c
  let limit := if c1.role = some Role.agent then rlAgent else rlGame
  if c1.role ≠ none ∧ limit ≤ c1.rateN then (st1, c1, [])
  else
  let c2 := { c1 with rateN := c1.rateN + 1 }
  match raw with
  | none => (st1, c2, [])
  | some data =>
    if data.type = some "auth" then
      match data.agentId with
      | none => (st1, c2, [Effect.sent ws ServerMsg.authFailure])
      | some id =>
        match mget st1.agents id with
        | none => (st1, c2, [Effect.sent ws ServerMsg.authFailure])
        | some agent =>
          if verifyChallenge data.challenge data.response agent.accessKey then
            let r := if data.role = some "agent" then Role.agent else Role.game
            let c3 := { c2 with agentId := some id, role := some r }
            match r with
            | Role.game =>
              let evict :=
                match agent.gameWs with
                | some old => if old ≠ ws then closeSafe st1 old 4000 else (st1, [])
                | none => (st1, [])
              let st2 := { evict.1 with agents := mset evict.1.agents id { agent with gameWs := some ws } }
              (st2, c3, evict.2 ++ [Effect.sent ws (ServerMsg.authSuccess freshSession r)])
            | Role.agent =>
              let evict :=
                match agent.agentWs with
                | some old => if old ≠ ws then closeSafe st1 old 4000 else (st1, [])
                | none => (st1, [])
              let st2 := { evict.1 with agents := mset evict.1.agents id { agent with agentWs := some ws } }
              (st2, c3, evict.2 ++ [Effect.sent ws (ServerMsg.authSuccess freshSession r)])
          else (st1, c2, [Effect.sent ws ServerMsg.authFailure])
    else
      match c2.agentId with
      | none => (st1, c2, [])
      | some id =>
        match mget st1.agents id with
        | none => (st1, c2, [])
        | some agent =>
          if c2.role = some Role.game ∧ data.type = some "state" then
            match agent.agentWs with
            | some peer =>
              if peer ∈ st1.openSockets then (st1, c2, [Effect.sent peer (ServerMsg.payload data)])
              else (st1, c2, [])
            | none => (st1, c2, [])
          else if c2.role = some Role.agent ∧
              (data.type = some "action" ∨ (data.steer ≠ none ∧ data.jump ≠ none)) then
            let payload := if data.type = some "action" then data else wrapAction data
            match agent.gameWs with
            | some peer =>
              if peer ∈ st1.openSockets then (st1, c2, [Effect.sent peer (ServerMsg.payload payload)])
              else (st1, c2, [])
            | none => (st1, c2, [])
          else (st1, c2, [])

/-- The per-socket close handler (lines 215-225): decrement the counter and
detach the socket from its session only when the field still points at it. -/
def handleClose (st : ServerState) (c : Conn) (ws : Nat) : ServerState :=
  let st1 := { st with totalConnections := st.totalConnections - 1 }
  match c.agentId with
  | none => st1
  | some id =>
    match mget st1.agents id with
    | none => st1
    | some agent =>
      if c.role = some Role.game ∧ agent.gameWs = some ws then
        { st1 with agents := mset st1.agents id { agent with gameWs := none } }
      else if c.role = some Role.agent ∧ agent.agentWs = some ws then
        { st1 with agents := mset st1.agents id { agent with agentWs := none } }
      else st1

/-- The admission part of the connection handler (lines 127-136): reject at
capacity with code 1013 and allocate no per-connection state, else increment
the counter and create the connection state. -/
def handleConnection (maxConn : Nat) (st : ServerState) (ws : Nat) (now : Nat) :
    ServerState × Option Conn × List Effect :=
  if (maxConn : Int) ≤ st.totalConnections then
    let r := closeSafe st ws 1013
    (r.1, none, r.2)
  else
    ({ st with totalConnections := st.totalConnections + 1 },
      some { agentId := none, role := none, lastPing := now, rateN := 0 }, [])

/-- Whitespace for JS `String.prototype.trim` (ASCII part: space, tab,
line feed, vertical tab, form feed, carriage return). -/
def isJsSpace (ch : Char) : Bool :=
  ch.toNat = 32 || ch.toNat = 9 || ch.toNat = 10 || ch.toNat = 11 ||
    ch.toNat = 12 || ch.toNat = 13

/-- JS `String.prototype.trim`: strip leading and trailing whitespace. -/
def jsTrim (s : String) : String :=
  String.mk (((s.data.dropWhile fun ch => isJsSpace ch).reverse.dropWhile
    fun ch => isJsSpace ch).reverse)

/-- The `/api/agents/register` handler (lines 83-110): compute the id
(trimmed request value, or `agent-` plus fresh hex when empty or absent),
then `agents.set` a brand-new record with a fresh key and null sockets.
The set replaces any existing entry for the same id. -/
def registerAgent (st : ServerState) (requested : Option String) (freshId : String)
    (freshKey : List Nat) (now : Nat) : ServerState × String :=
  let t := jsTrim (requested.getD "")
  let id := if t = "" then "agent-" ++ freshId else t
  let fresh : Agent := { accessKey := freshKey, created := now, gameWs := none, agentWs := none }
  ({ st with agents := mset st.agents id fresh }, id)

/-- The socket field of an agent record selected by role. -/
def roleSocket (r : Role) (a : Agent) : Option Nat :=
  match r with
  | Role.game => a.gameWs
  | Role.agent => a.agentWs

/-- Replace the socket field of an agent record selected by role. -/
def setRoleSocket (r : Role) (a : Agent) (s : Option Nat) : Agent :=
  match r with
  | Role.game => { a with gameWs := s }
  | Role.agent => { a with agentWs := s }

theorem mget_mset_self (m : List (String × Agent)) (k : String) (v : Agent) :
    mget (mset m k v) k = some v := by
  induction m with
  | nil => simp [mget, mset]
  | cons hd tl ih =>
    obtain ⟨k₂, w⟩ := hd
    by_cases h : k₂ = k <;> simp [mget, mset, h, ih]

theorem mget_mset_ne (m : List (String × Agent)) (k k₂ : String) (v : Agent)
    (h : k ≠ k₂) : mget (mset m k v) k₂ = mget m k₂ := by
  induction m with
  | nil => simp [mget, mset, h]
  | cons hd tl ih =>
    obtain ⟨k₃, w⟩ := hd
    by_cases h₃ : k₃ = k
    · subst h₃
      simp [mget, mset, h]
    · simp [mget, mset, h₃, ih]

/-- C7: a failing auth attempt (unknown identity or bad fingerprint) elicits
exactly one failure response; the socket is not closed, the connection stays
unauthenticated with its identity binding unchanged, and the registry and the
set of open sockets are untouched, so further auth attempts stay possible. -/
theorem auth_failure_keeps_connection (rlG rlA : Nat) (st : ServerState) (c : Conn)
    (ws now : Nat) (data : Data) (fresh : String)
    (hrole : c.role = none)
    (htype : data.type = some "auth")
    (hfail : ∀ id agent, data.agentId = some id → mget st.agents id = some agent →
      verifyChallenge data.challenge data.response agent.accessKey = false) :
    (handleMessage rlG rlA st c ws now (some data) fresh).2.2 =
        [Effect.sent ws ServerMsg.authFailure] ∧
    (handleMessage rlG rlA st c ws now (some data) fresh).1.agents = st.agents ∧
    (handleMessage rlG rlA st c ws now (some data) fresh).1.openSockets = st.openSockets ∧
    (handleMessage rlG rlA st c ws now (some data) fresh).2.1.role = none ∧
    (handleMessage rlG rlA st c ws now (some data) fresh).2.1.agentId = c.agentId := by
  unfold handleMessage
  by_cases hw : 1000 < now - st.lastRateLimitReset <;>
    · cases hA : data.agentId with
      | none => simp [hw, hrole, htype, hA]
      | some id =>
        cases hm : mget st.agents id with
        | none => simp [hw, hrole, htype, hA, hm]
        | some agent => simp [hw, hrole, htype, hA, hm, hfail id agent hA hm]

/-- C3: when socket `B` authenticates for role `r` on an identity whose
session already holds an open socket `A` of that role, `A` is closed with
eviction code 4000 and the role field becomes `B`; and when the close handler
of `A` later runs (with the connection state `A` had), the field is not
cleared, because it no longer points at `A` - it remains `B`.  The statement
is generic in `r`, so it covers the game role and the agent role. -/
theorem role_eviction_and_guarded_detach
    (rlG rlA : Nat) (st : ServerState) (c cA : Conn) (A B now : Nat) (id : String)
    (agent : Agent) (r : Role) (data : Data) (fresh : String)
    (hrole : c.role = none)
    (htype : data.type = some "auth")
    (hid : data.agentId = some id)
    (hagent : mget st.agents id = some agent)
    (hver : verifyChallenge data.challenge data.response agent.accessKey = true)
    (hr : (if data.role = some "agent" then Role.agent else Role.game) = r)
    (hA : roleSocket r agent = some A)
    (hopen : A ∈ st.openSockets)
    (hne : A ≠ B)
    (hcA : cA.agentId = some id)
    (hcArole : cA.role = some r) :
    (handleMessage rlG rlA st c B now (some data) fresh).2.2 =
        [Effect.closed A 4000, Effect.sent B (ServerMsg.authSuccess fresh r)] ∧
    mget (handleMessage rlG rlA st c B now (some data) fresh).1.agents id =
        some (setRoleSocket r agent (some B)) ∧
    (handleMessage rlG rlA st c B now (some data) fresh).1.openSockets =
        st.openSockets.erase A ∧
    (handleMessage rlG rlA st c B now (some data) fresh).2.1.role = some r ∧
    (handleMessage rlG rlA st c B now (some data) fresh).2.1.agentId = some id ∧
    mget (handleClose (handleMessage rlG rlA st c B now (some data) fresh).1 cA A).agents id =
        some (setRoleSocket r agent (some B)) := by
  have hBA : B ≠ A := Ne.symm hne
  unfold handleMessage handleClose
  by_cases hrl : data.role = some "agent"
  · have hr2 : r = Role.agent := by rw [← hr]; simp [hrl]
    subst hr2
    have hA₂ : agent.agentWs = some A := by simpa [roleSocket] using hA
    by_cases hw : 1000 < now - st.lastRateLimitReset <;>
      simp [hw, hrole, htype, hid, hagent, hver, hrl, hA₂, hne, hBA, hopen,
        closeSafe, mget_mset_self, setRoleSocket, hcA, hcArole]
  · have hr2 : r = Role.game := by rw [← hr]; simp [hrl]
    subst hr2
    have hA₂ : agent.gameWs = some A := by simpa [roleSocket] using hA
    by_cases hw : 1000 < now - st.lastRateLimitReset <;>
      simp [hw, hrole, htype, hid, hagent, hver, hrl, hA₂, hne, hBA, hopen,
        closeSafe, mget_mset_self, setRoleSocket, hcA, hcArole]

/-- Delivery to an optional peer socket (lines 200-202 and 208-210): the
message is sent only when the peer exists and is open; otherwise nothing
happens and the sender is not notified. -/
def forwardTo (st : ServerState) (peer : Option Nat) (m : ServerMsg) : List Effect :=
  match peer with
  | some p => if p ∈ st.openSockets then [Effect.sent p m] else []
  | none => []

/-- C2 (amended): routing for an authenticated connection below its rate
ceiling and inside the current window.  A `state` message from the game role
is forwarded verbatim to the agent socket under the present-and-open policy
of `forwardTo`.  A message from the agent role of type `action` is forwarded
unchanged; one recognized only by its `steer` and `jump` fields is forwarded
through `wrapAction`, which tags it `action` only when it has no `type`
field of its own - an existing different tag survives, because the JS spread
of line 207 lets `data.type` override the `action` tag in the spread. -/
theorem route_forwarding (rlG rlA : Nat) (st : ServerState) (c : Conn) (ws now : Nat)
    (data : Data) (fresh : String) (r : Role) (id : String) (agent : Agent)
    (hw : ¬ 1000 < now - st.lastRateLimitReset)
    (hrole : c.role = some r)
    (hlimit : c.rateN < if c.role = some Role.agent then rlA else rlG)
    (hcid : c.agentId = some id)
    (hagent : mget st.agents id = some agent) :
    (r = Role.game → data.type = some "state" →
      handleMessage rlG rlA st c ws now (some data) fresh =
        (st, { c with rateN := c.rateN + 1 },
          forwardTo st agent.agentWs (ServerMsg.payload data))) ∧
    (r = Role.agent → data.type = some "action" →
      handleMessage rlG rlA st c ws now (some data) fresh =
        (st, { c with rateN := c.rateN + 1 },
          forwardTo st agent.gameWs (ServerMsg.payload data))) ∧
    (r = Role.agent → data.type ≠ some "auth" → data.type ≠ some "action" →
      data.steer ≠ none → data.jump ≠ none →
      handleMessage rlG rlA st c ws now (some data) fresh =
        (st, { c with rateN := c.rateN + 1 },
          forwardTo st agent.gameWs (ServerMsg.payload (wrapAction data)))) := by
  have hnl : ¬ ((if c.role = some Role.agent then rlA else rlG) ≤ c.rateN) :=
    not_le.mpr hlimit
  refine ⟨?_, ?_, ?_⟩
  · intro h1 h2
    subst h1
    have h6 : ¬ rlG ≤ c.rateN := by simpa [hrole] using hnl
    unfold handleMessage
    cases hA : agent.agentWs with
    | none => simp [hw, hrole, h6, h2, hcid, hagent, forwardTo, hA]
    | some peer =>
      by_cases hp : peer ∈ st.openSockets <;>
        simp [hw, hrole, h6, h2, hcid, hagent, forwardTo, hA, hp]
  · intro h1 h2
    subst h1
    have h6 : ¬ rlA ≤ c.rateN := by simpa [hrole] using hnl
    unfold handleMessage
    cases hA : agent.gameWs with
    | none => simp [hw, hrole, h6, h2, hcid, hagent, forwardTo, hA]
    | some peer =>
      by_cases hp : peer ∈ st.openSockets <;>
        simp [hw, hrole, h6, h2, hcid, hagent, forwardTo, hA, hp]
  · intro h1 h2 h3 h4 h5
    subst h1
    have h6 : ¬ rlA ≤ c.rateN := by simpa [hrole] using hnl
    unfold handleMessage
    cases hA : agent.gameWs with
    | none => simp [hw, hrole, h6, h2, h3, h4, h5, hcid, hagent, forwardTo, hA]
    | some peer =>
      by_cases hp : peer ∈ st.openSockets <;>
        simp [hw, hrole, h6, h2, h3, h4, h5, hcid, hagent, forwardTo, hA, hp]

/-- A sample registry record: secret is the code units of `k`, the game
socket is 1, the agent socket is 2. -/
def sampleAgent : Agent :=
  { accessKey := [107], created := 0, gameWs := some 1, agentWs := some 2 }

/-- A sample server state holding `sampleAgent` under identity `a`,
with sockets 1 and 2 open. -/
def sampleState : ServerState :=
  { agents := [("a", sampleAgent)], totalConnections := 2,
    lastRateLimitReset := 0, openSockets := [1, 2] }

/-- Connection state of socket 2 once authenticated as the agent role of
identity `a`. -/
def sampleAgentConn : Conn :=
  { agentId := some "a", role := some Role.agent, lastPing := 0, rateN := 0 }

/-- A message tagged `zzz` that carries both control fields. -/
def taggedControlData : Data :=
  { type := some "zzz", steer := some 1, jump := some false }

/-- C2 counterexample: an authenticated agent socket (id 2) sends a message
carrying `steer` and `jump` but tagged `type := "zzz"`; the claim says it is
forwarded wrapped in a `type := "action"` envelope, but the game socket
(id 1) receives it with its original tag `"zzz"` unchanged. -/
theorem route_forwarding_cx :
    (handleMessage 25 65 sampleState sampleAgentConn 2 0
        (some taggedControlData) "s").2.2 =
      [Effect.sent 1 (ServerMsg.payload taggedControlData)] ∧
    taggedControlData.type ≠ some "action" := by
  constructor
  · rfl
  · decide

/-- On an unauthenticated connection the early-return of the rate limiter is
never taken: every message reaches the `rateCount.n++` line, so the stored
count after the call is the (possibly window-reset) count plus one. -/
theorem handleMessage_rateN_of_unauth (rlG rlA : Nat) (st : ServerState) (c : Conn)
    (ws now : Nat) (raw : Option Data) (fresh : String) (h : c.role = none) :
    (handleMessage rlG rlA st c ws now raw fresh).2.1.rateN =
      (if 1000 < now - st.lastRateLimitReset then 0 else c.rateN) + 1 := by
  unfold handleMessage
  by_cases hw : 1000 < now - st.lastRateLimitReset <;>
    cases raw with
    | none => simp [hw, h]
    | some data =>
      by_cases ht : data.type = some "auth"
      · cases hA : data.agentId with
        | none => simp [hw, h, ht, hA]
        | some id =>
          cases hm : mget st.agents id with
          | none => simp [hw, h, ht, hA, hm]
          | some agent =>
            by_cases hv : verifyChallenge data.challenge data.response agent.accessKey = true
            · by_cases hrl : data.role = some "agent" <;>
                simp [hw, h, ht, hA, hm, hv, hrl]
            · simp [hw, h, ht, hA, hm, hv]
      · cases hA : c.agentId with
        | none => simp [hw, h, ht, hA]
        | some id => cases hm : mget st.agents id <;> simp [hw, h, ht, hA, hm]

/-- An `auth` message on an unauthenticated connection always produces a
response (success or failure): it is never silently rate-dropped. -/
theorem handleMessage_auth_responds (rlG rlA : Nat) (st : ServerState) (c : Conn)
    (ws now : Nat) (data : Data) (fresh : String) (h : c.role = none)
    (ht : data.type = some "auth") :
    (handleMessage rlG rlA st c ws now (some data) fresh).2.2 ≠ [] := by
  unfold handleMessage
  by_cases hw : 1000 < now - st.lastRateLimitReset <;>
    · cases hA : data.agentId with
      | none => simp [hw, h, ht, hA]
      | some id =>
        cases hm : mget st.agents id with
        | none => simp [hw, h, ht, hA, hm]
        | some agent =>
          by_cases hv : verifyChallenge data.challenge data.response agent.accessKey = true
          · by_cases hrl : data.role = some "agent" <;>
              simp [hw, h, ht, hA, hm, hv, hrl]
          · simp [hw, h, ht, hA, hm, hv]

/-- C5 (amended): inside the current window, every message on an
unauthenticated connection is also counted (the count rises by one); on an
authenticated connection a message arriving with the count at or above the
role ceiling is dropped with no state change and no effect at all; the agent
ceiling is strictly higher than the game ceiling. -/
theorem rate_limit_policy (rlG rlA : Nat) (st : ServerState) (c : Conn) (ws now : Nat)
    (raw : Option Data) (fresh : String) (r : Role)
    (hw : ¬ 1000 < now - st.lastRateLimitReset) :
    (c.role = none →
      (handleMessage rlG rlA st c ws now raw fresh).2.1.rateN = c.rateN + 1) ∧
    (c.role = some r → (if c.role = some Role.agent then rlA else rlG) ≤ c.rateN →
      handleMessage rlG rlA st c ws now raw fresh = (st, c, [])) ∧
    RATE_LIMIT_GAME < RATE_LIMIT_AGENT := by
  refine ⟨?_, ?_, by decide⟩
  · intro h
    rw [handleMessage_rateN_of_unauth rlG rlA st c ws now raw fresh h]
    simp [hw]
  · intro h1 h2
    unfold handleMessage
    rw [h1] at h2
    simp only [Option.some.injEq] at h2
    simp [hw, h1]
    intro hlt
    exact absurd h2 (not_le.mpr hlt)

/-- A valid auth message for identity `a` and the game role: the response is
the digest of challenge `[99]` under key `[107]` (`signChallenge` yields
`c68` there). -/
def authGameData : Data :=
  { type := some "auth", agentId := some "a", challenge := [99],
    response := "c68", role := some "game" }

/-- Feed one unparseable message on socket 1 into the handler. -/
def junkStep (p : ServerState × Conn) (_ : Nat) : ServerState × Conn :=
  let r := handleMessage 25 65 p.1 p.2 1 0 none "s"
  (r.1, r.2.1)

/-- Socket 1 of `sampleState`, still unauthenticated, after 25 junk
messages inside one window. -/
def afterSpam : ServerState × Conn :=
  (List.range 25).foldl junkStep (sampleState, {})

/-- The same connection after its valid game-role auth message. -/
def spamThenAuth : ServerState × Conn :=
  let r := handleMessage 25 65 afterSpam.1 afterSpam.2 1 0 (some authGameData) "u"
  (r.1, r.2.1)

set_option maxRecDepth 4000 in
/-- C5 counterexample: on a fresh unauthenticated connection (socket 1,
count 0), 25 unparseable pre-auth messages are all counted; the connection
then authenticates as the game role (count reaches 26), and its very first
post-auth `state` message - inside the same window, with the agent peer
(socket 2) present and open - is dropped: no forwarding happens and the
count does not move.  So messages arriving before authentication do count
toward the window, contradicting the claim. -/
theorem rate_limit_preauth_cx :
    (spamThenAuth.2.role = some Role.game ∧ spamThenAuth.2.rateN = 26) ∧
    (handleMessage 25 65 spamThenAuth.1 spamThenAuth.2 1 0
        (some { type := some "state" }) "t").2.2 = [] ∧
    (handleMessage 25 65 spamThenAuth.1 spamThenAuth.2 1 0
        (some { type := some "state" }) "t").2.1.rateN = 26 := by
  constructor
  · constructor <;> rfl
  · constructor <;> rfl

/-- C10: while a connection is unauthenticated, the drop branch of the rate
limiter is unreachable whatever the stored count is: the count always
advances past the `rateCount.n++` line, and an auth attempt always gets a
response, so repeated auth attempts are never rate-limited. -/
theorem unauth_never_rate_dropped (rlG rlA : Nat) (st : ServerState) (c : Conn)
    (ws now : Nat) (raw : Option Data) (fresh : String)
    (h : c.role = none) :
    ((handleMessage rlG rlA st c ws now raw fresh).2.1.rateN =
      (if 1000 < now - st.lastRateLimitReset then 0 else c.rateN) + 1) ∧
    (∀ data : Data, raw = some data → data.type = some "auth" →
      (handleMessage rlG rlA st c ws now raw fresh).2.2 ≠ []) := by
  refine ⟨handleMessage_rateN_of_unauth rlG rlA st c ws now raw fresh h, ?_⟩
  intro data hd ht
  subst hd
  exact handleMessage_auth_responds rlG rlA st c ws now data fresh h ht

theorem closeSafe_agents (st : ServerState) (o cd : Nat) :
    (closeSafe st o cd).1.agents = st.agents := by
  unfold closeSafe
  split <;> rfl

theorem closeSafe_total (st : ServerState) (o cd : Nat) :
    (closeSafe st o cd).1.totalConnections = st.totalConnections := by
  unfold closeSafe
  split <;> rfl

theorem mget_mset_accessKey (m : List (String × Agent)) (k k₂ : String) (agent v : Agent)
    (hm : mget m k = some agent) (hkey : v.accessKey = agent.accessKey) :
    (mget (mset m k v) k₂).map Agent.accessKey = (mget m k₂).map Agent.accessKey := by
  by_cases h : k = k₂
  · subst h
    simp [mget_mset_self m k v, hm, hkey]
  · rw [mget_mset_ne m k k₂ v h]

/-- The message handler never touches `totalConnections`, and it never
changes the `accessKey` of any registry entry (it only rewrites socket
fields on auth success). -/
theorem handleMessage_preserves (rlG rlA : Nat) (st : ServerState) (c : Conn) (ws now : Nat)
    (raw : Option Data) (fresh : String) (id : String) :
    (handleMessage rlG rlA st c ws now raw fresh).1.totalConnections = st.totalConnections ∧
    (mget (handleMessage rlG rlA st c ws now raw fresh).1.agents id).map Agent.accessKey
      = (mget st.agents id).map Agent.accessKey := by
  unfold handleMessage
  by_cases hw : 1000 < now - st.lastRateLimitReset <;>
    · simp only [hw, if_true, if_false, ite_true, ite_false]
      split <;>
      · split
        · exact ⟨rfl, rfl⟩
        · cases raw with
          | none => exact ⟨rfl, rfl⟩
          | some data =>
            dsimp only
            by_cases ht : data.type = some "auth"
            · rw [if_pos ht]
              cases hA : data.agentId with
              | none => exact ⟨rfl, rfl⟩
              | some id₂ =>
                dsimp only
                cases hm : mget st.agents id₂ with
                | none => exact ⟨rfl, rfl⟩
                | some agent =>
                  dsimp only
                  by_cases hv : verifyChallenge data.challenge data.response agent.accessKey = true
                  · rw [if_pos hv]
                    by_cases hrl : data.role = some "agent"
                    · rw [if_pos hrl]
                      dsimp only
                      cases hO : agent.agentWs with
                      | none =>
                        exact ⟨rfl, mget_mset_accessKey _ _ _ _ _ hm rfl⟩
                      | some old =>
                        dsimp only
                        by_cases ho : old = ws
                        · rw [if_neg (not_not_intro ho)]
                          exact ⟨rfl, mget_mset_accessKey _ _ _ _ _ hm rfl⟩
                        · rw [if_pos ho]
                          refine ⟨by rw [closeSafe_total], ?_⟩
                          rw [closeSafe_agents]
                          exact mget_mset_accessKey _ _ _ _ _ hm rfl
                    · rw [if_neg hrl]
                      dsimp only
                      cases hO : agent.gameWs with
                      | none =>
                        exact ⟨rfl, mget_mset_accessKey _ _ _ _ _ hm rfl⟩
                      | some old =>
                        dsimp only
                        by_cases ho : old = ws
                        · rw [if_neg (not_not_intro ho)]
                          exact ⟨rfl, mget_mset_accessKey _ _ _ _ _ hm rfl⟩
                        · rw [if_pos ho]
                          refine ⟨by rw [closeSafe_total], ?_⟩
                          rw [closeSafe_agents]
                          exact mget_mset_accessKey _ _ _ _ _ hm rfl
                  · rw [if_neg hv]
                    exact ⟨rfl, rfl⟩
            · rw [if_neg ht]
              cases hB : c.agentId with
              | none => exact ⟨rfl, rfl⟩
              | some id₂ =>
                dsimp only
                cases hm : mget st.agents id₂ with
                | none => exact ⟨rfl, rfl⟩
                | some agent =>
                  dsimp only
                  by_cases hg : c.role = some Role.game ∧ data.type = some "state"
                  · rw [if_pos hg]
                    cases hO : agent.agentWs with
                    | none => exact ⟨rfl, rfl⟩
                    | some peer =>
                      dsimp only
                      by_cases hp : peer ∈ st.openSockets
                      · rw [if_pos hp]
                        exact ⟨rfl, rfl⟩
                      · rw [if_neg hp]
                        exact ⟨rfl, rfl⟩
                  · rw [if_neg hg]
                    by_cases ha : c.role = some Role.agent ∧
                        (data.type = some "action" ∨ (data.steer ≠ none ∧ data.jump ≠ none))
                    · rw [if_pos ha]
                      cases hO : agent.gameWs with
                      | none => exact ⟨rfl, rfl⟩
                      | some peer =>
                        dsimp only
                        by_cases hp : peer ∈ st.openSockets
                        · rw [if_pos hp]
                          exact ⟨rfl, rfl⟩
                        · rw [if_neg hp]
                          exact ⟨rfl, rfl⟩
                    · rw [if_neg ha]
                      exact ⟨rfl, rfl⟩

/-- Connection state of socket 1 once authenticated as the game role of
identity `a`. -/
def sampleGameConn : Conn :=
  { agentId := some "a", role := some Role.game, lastPing := 0, rateN := 0 }

/-- A valid auth message for identity `a` claiming the agent role. -/
def authAgentData : Data :=
  { type := some "auth", agentId := some "a", challenge := [99],
    response := "c68", role := some "agent" }

/-- C8 (amended): once authenticated, a non-auth message that is not a
forwardable payload for the connection role is silently ignored - no
effects, registry and socket set untouched, only the rate count moves - so
role and identity binding are stable under such messages.  An `auth`
message, however, is still processed: with valid credentials for some
identity the connection re-authenticates and its role and identity binding
become those of the new auth message. -/
theorem authenticated_message_handling (rlG rlA : Nat) (st : ServerState) (c : Conn)
    (ws now : Nat) (data : Data) (fresh : String) (r : Role)
    (hw : ¬ 1000 < now - st.lastRateLimitReset)
    (hrole : c.role = some r)
    (hlimit : c.rateN < if c.role = some Role.agent then rlA else rlG) :
    (data.type ≠ some "auth" →
      ¬ (c.role = some Role.game ∧ data.type = some "state") →
      ¬ (c.role = some Role.agent ∧
          (data.type = some "action" ∨ (data.steer ≠ none ∧ data.jump ≠ none))) →
      handleMessage rlG rlA st c ws now (some data) fresh =
        (st, { c with rateN := c.rateN + 1 }, [])) ∧
    (∀ id₂ agent, data.type = some "auth" → data.agentId = some id₂ →
      mget st.agents id₂ = some agent →
      verifyChallenge data.challenge data.response agent.accessKey = true →
      (handleMessage rlG rlA st c ws now (some data) fresh).2.1.role =
          some (if data.role = some "agent" then Role.agent else Role.game) ∧
      (handleMessage rlG rlA st c ws now (some data) fresh).2.1.agentId = some id₂) := by
  have hnl : ¬ ((if c.role = some Role.agent then rlA else rlG) ≤ c.rateN) :=
    not_le.mpr hlimit
  have hnl₂ : ¬ ((if r = Role.agent then rlA else rlG) ≤ c.rateN) := by
    rw [hrole] at hnl
    simpa using hnl
  constructor
  · intro ht hg ha
    have hg₂ : ¬ (r = Role.game ∧ data.type = some "state") := by
      rw [hrole] at hg
      simpa using hg
    have ha₂ : ¬ (r = Role.agent ∧
        (data.type = some "action" ∨ (¬ data.steer = none ∧ ¬ data.jump = none))) := by
      rw [hrole] at ha
      simpa using ha
    unfold handleMessage
    cases hB : c.agentId with
    | none => simp [hw, hrole, hnl₂, ht, hB]
    | some id₂ =>
      cases hm : mget st.agents id₂ with
      | none => simp [hw, hrole, hnl₂, ht, hB, hm]
      | some agent => simp [hw, hrole, hnl₂, ht, hB, hm, hg₂, ha₂]
  · intro id₂ agent ht hA hm hv
    unfold handleMessage
    by_cases hrl : data.role = some "agent" <;>
      simp [hw, hrole, hnl₂, ht, hA, hm, hv, hrl]

/-- C8 counterexample: socket 1 is authenticated as the game role of
identity `a`, yet a further valid auth message claiming the agent role is
not ignored: the connection role changes to `agent` (a transition other
than to Closed), the registry agent-socket field of `a` is re-attached to
socket 1, the previous agent socket 2 is evicted with code 4000, and a
response is sent. -/
theorem authenticated_reauth_cx :
    (handleMessage 25 65 sampleState sampleGameConn 1 0 (some authAgentData) "u").2.1.role =
        some Role.agent ∧
    sampleGameConn.role = some Role.game ∧
    (mget (handleMessage 25 65 sampleState sampleGameConn 1 0
        (some authAgentData) "u").1.agents "a").map Agent.agentWs = some (some 1) ∧
    (handleMessage 25 65 sampleState sampleGameConn 1 0 (some authAgentData) "u").2.2 =
      [Effect.closed 2 4000,
        Effect.sent 1 (ServerMsg.authSuccess "u" Role.agent)] := by
  refine ⟨rfl, rfl, rfl, rfl⟩

/-- The empty server state at process start (lines 20-23). -/
def initialState : ServerState :=
  { agents := [], totalConnections := 0, lastRateLimitReset := 0, openSockets := [] }

/-- C9 (amended): no socket-facing operation (message handling, close,
admission) ever changes the `accessKey` of a registered Session; but the
registration endpoint, called again for the same identity, replaces the
whole record, so the stored secret becomes the fresh key of the second
call. -/
theorem secret_immutability (rlG rlA maxC : Nat) (st : ServerState) (c : Conn)
    (ws now : Nat) (raw : Option Data) (fresh : String) (id : String) :
    ((mget (handleMessage rlG rlA st c ws now raw fresh).1.agents id).map Agent.accessKey
      = (mget st.agents id).map Agent.accessKey) ∧
    ((mget (handleClose st c ws).agents id).map Agent.accessKey
      = (mget st.agents id).map Agent.accessKey) ∧
    ((mget (handleConnection maxC st ws now).1.agents id).map Agent.accessKey
      = (mget st.agents id).map Agent.accessKey) ∧
    (∀ requested freshId freshKey now₂,
      mget (registerAgent st requested freshId freshKey now₂).1.agents
          (registerAgent st requested freshId freshKey now₂).2 =
        some { accessKey := freshKey, created := now₂, gameWs := none, agentWs := none }) := by
  refine ⟨(handleMessage_preserves rlG rlA st c ws now raw fresh id).2, ?_, ?_, ?_⟩
  · unfold handleClose
    cases hB : c.agentId with
    | none => rfl
    | some id₂ =>
      dsimp only
      cases hm : mget st.agents id₂ with
      | none => rfl
      | some agent =>
        dsimp only
        by_cases hg : c.role = some Role.game ∧ agent.gameWs = some ws
        · rw [if_pos hg]
          exact mget_mset_accessKey _ _ _ _ _ hm rfl
        · rw [if_neg hg]
          by_cases ha : c.role = some Role.agent ∧ agent.agentWs = some ws
          · rw [if_pos ha]
            exact mget_mset_accessKey _ _ _ _ _ hm rfl
          · rw [if_neg ha]
  · unfold handleConnection
    by_cases hcap : (maxC : Int) ≤ st.totalConnections <;>
      simp [hcap, closeSafe_agents]
  · intro requested freshId freshKey now₂
    unfold registerAgent
    exact mget_mset_self _ _ _

/-- C9 counterexample: identity `a` is registered with secret `[1]`; a
second registration request for the same identity `a` replaces the record,
and the stored secret is now `[2]` - the secret visible at the public
interface for that identity has changed. -/
theorem secret_overwrite_cx :
    (mget (registerAgent initialState (some "a") "x" [1] 0).1.agents "a").map
        Agent.accessKey = some [1] ∧
    (mget (registerAgent (registerAgent initialState (some "a") "x" [1] 0).1
        (some "a") "y" [2] 1).1.agents "a").map Agent.accessKey = some [2] ∧
    ([2] : List Nat) ≠ [1] := by
  refine ⟨by decide, by decide, by decide⟩

/-! ## Event-level system for admission control

A `Sys` is the process-wide server state plus the table of live admitted
connections (their closure state, keyed by socket id).  Events model the
event-loop callbacks: a socket connecting, a message callback, and the
close callback.  A socket rejected at admission gets no handlers installed
(the `connection` handler returns before `ws.on` is called, lines 128-131),
so `message` and `disconnect` events act only on sockets present in the
table, and the close handler of an admitted socket fires once: the
`disconnect` event removes its entry. -/

/-- Find the connection state of a socket in the table. -/
def lookupConn (l : List (Nat × Conn)) (ws : Nat) : Option Conn :=
  match l with
  | [] => none
  | (w, c) :: r => if w = ws then some c else lookupConn r ws

/-- Remove the (first) entry of a socket from the table. -/
def removeConn (l : List (Nat × Conn)) (ws : Nat) : List (Nat × Conn) :=
  match l with
  | [] => []
  | (w, c) :: r => if w = ws then r else (w, c) :: removeConn r ws

/-- Replace the connection state of a socket in the table. -/
def setConn (l : List (Nat × Conn)) (ws : Nat) (c : Conn) : List (Nat × Conn) :=
  match l with
  | [] => []
  | (w, c₂) :: r => if w = ws then (w, c) :: r else (w, c₂) :: setConn r ws c

/-- Whole-process state: server globals plus admitted connections. -/
structure Sys where
  server : ServerState
  conns : List (Nat × Conn)
deriving DecidableEq

/-- Event-loop events delivered to the server. -/
inductive Ev
| connect (ws now : Nat)
| message (ws now : Nat) (raw : Option Data) (fresh : String)
| disconnect (ws : Nat)
deriving DecidableEq

/-- One event-loop callback. -/
def sysStep (maxConn rlG rlA : Nat) (s : Sys) (e : Ev) : Sys :=
  match e with
  | Ev.connect ws now =>
    match handleConnection maxConn s.server ws now with
    | (st, some c, _) => { server := st, conns := (ws, c) :: s.conns }
    | (st, none, _) => { server := st, conns := s.conns }
  | Ev.message ws now raw fresh =>
    match lookupConn s.conns ws with
    | some c =>
      let r := handleMessage rlG rlA s.server c ws now raw fresh
      { server := r.1, conns := setConn s.conns ws r.2.1 }
    | none => s
  | Ev.disconnect ws =>
    match lookupConn s.conns ws with
    | some c => { server := handleClose s.server c ws, conns := removeConn s.conns ws }
    | none => s

/-- Run from process start (empty registry, zero connections). -/
def sysRun (maxConn rlG rlA : Nat) (evs : List Ev) : Sys :=
  evs.foldl (sysStep maxConn rlG rlA) { server := initialState, conns := [] }

/-- The counter matches the table and respects the cap. -/
def sysInv (maxConn : Nat) (s : Sys) : Prop :=
  s.server.totalConnections = (s.conns.length : Int) ∧ s.conns.length ≤ maxConn

theorem setConn_length (l : List (Nat × Conn)) (ws : Nat) (c : Conn) :
    (setConn l ws c).length = l.length := by
  induction l with
  | nil => rfl
  | cons hd tl ih =>
    obtain ⟨w, c₂⟩ := hd
    by_cases h : w = ws <;> simp [setConn, h, ih]

theorem removeConn_length (l : List (Nat × Conn)) (ws : Nat) (c : Conn)
    (h : lookupConn l ws = some c) : l.length = (removeConn l ws).length + 1 := by
  induction l with
  | nil => simp [lookupConn] at h
  | cons hd tl ih =>
    obtain ⟨w, c₂⟩ := hd
    by_cases hww : w = ws
    · simp [removeConn, hww]
    · simp only [lookupConn, if_neg hww] at h
      simp [removeConn, hww, ih h]

/-- The close handler always decrements the counter by exactly one. -/
theorem handleClose_total (st : ServerState) (c : Conn) (ws : Nat) :
    (handleClose st c ws).totalConnections = st.totalConnections - 1 := by
  unfold handleClose
  cases hB : c.agentId with
  | none => rfl
  | some id₂ =>
    dsimp only
    cases hm : mget st.agents id₂ with
    | none => rfl
    | some agent =>
      dsimp only
      repeat' split
      all_goals rfl

theorem sysStep_inv (maxConn rlG rlA : Nat) (s : Sys) (e : Ev)
    (h : sysInv maxConn s) : sysInv maxConn (sysStep maxConn rlG rlA s e) := by
  obtain ⟨h1, h2⟩ := h
  cases e with
  | connect ws now =>
    unfold sysStep handleConnection
    dsimp only
    by_cases hcap : (maxConn : Int) ≤ s.server.totalConnections
    · rw [if_pos hcap]
      dsimp only
      refine ⟨?_, h2⟩
      rw [closeSafe_total]
      exact h1
    · rw [if_neg hcap]
      dsimp only
      refine ⟨?_, ?_⟩
      · simp only [List.length_cons]
        rw [h1]
        push_cast
        ring
      · simp only [List.length_cons]
        rw [h1] at hcap
        omega
  | message ws now raw fresh =>
    unfold sysStep
    dsimp only
    cases hl : lookupConn s.conns ws with
    | none => exact ⟨h1, h2⟩
    | some c =>
      dsimp only
      refine ⟨?_, ?_⟩
      · rw [(handleMessage_preserves rlG rlA s.server c ws now raw fresh "").1]
        rw [setConn_length]
        exact h1
      · rw [setConn_length]
        exact h2
  | disconnect ws =>
    unfold sysStep
    dsimp only
    cases hl : lookupConn s.conns ws with
    | none => exact ⟨h1, h2⟩
    | some c =>
      dsimp only
      have hlen := removeConn_length s.conns ws c hl
      refine ⟨?_, ?_⟩
      · rw [handleClose_total, h1, hlen]
        push_cast
        ring
      · dsimp only
        omega

theorem sysRun_inv (maxConn rlG rlA : Nat) (evs : List Ev) :
    sysInv maxConn (sysRun maxConn rlG rlA evs) := by
  unfold sysRun
  have h : ∀ s : Sys, sysInv maxConn s →
      sysInv maxConn (evs.foldl (sysStep maxConn rlG rlA) s) := by
    induction evs with
    | nil => intro s hs; exact hs
    | cons e r ih =>
      intro s hs
      exact ih _ (sysStep_inv maxConn rlG rlA s e hs)
  refine h _ ?_
  constructor <;> simp [initialState]

/-- C4: admission control.  (1) In every state reachable by any sequence of
events from process start, `0 <= totalConnections <= MAX_CONNECTIONS`.
(2) A socket arriving below the cap is admitted: it gets fresh connection
state and the counter is incremented.  (3) A socket arriving at the cap is
closed at once with code 1013, no connection state is created, and the
counter is unchanged.  (4) The close event of an admitted connection
decrements the counter exactly once and removes its entry, and (5) a close
event for a socket with no table entry (never admitted, or already closed)
changes nothing. -/
theorem admission_control (maxConn rlG rlA : Nat) (st : ServerState) (ws now : Nat)
    (evs : List Ev) (s : Sys) (c : Conn) :
    (0 ≤ (sysRun maxConn rlG rlA evs).server.totalConnections ∧
      (sysRun maxConn rlG rlA evs).server.totalConnections ≤ (maxConn : Int)) ∧
    (st.totalConnections < (maxConn : Int) →
      handleConnection maxConn st ws now =
        ({ st with totalConnections := st.totalConnections + 1 },
          some { agentId := none, role := none, lastPing := now, rateN := 0 }, [])) ∧
    ((maxConn : Int) ≤ st.totalConnections → ws ∈ st.openSockets →
      handleConnection maxConn st ws now =
        ({ st with openSockets := st.openSockets.erase ws }, none,
          [Effect.closed ws 1013])) ∧
    (lookupConn s.conns ws = some c →
      (sysStep maxConn rlG rlA s (Ev.disconnect ws)).server.totalConnections =
        s.server.totalConnections - 1 ∧
      (sysStep maxConn rlG rlA s (Ev.disconnect ws)).conns = removeConn s.conns ws) ∧
    (lookupConn s.conns ws = none →
      sysStep maxConn rlG rlA s (Ev.disconnect ws) = s) := by
  obtain ⟨i1, i2⟩ := sysRun_inv maxConn rlG rlA evs
  refine ⟨⟨?_, ?_⟩, ?_, ?_, ?_, ?_⟩
  · rw [i1]
    exact Int.ofNat_nonneg _
  · rw [i1]
    exact_mod_cast i2
  · intro h
    unfold handleConnection
    rw [if_neg (not_le.mpr h)]
  · intro h hopen
    unfold handleConnection
    rw [if_pos h]
    unfold closeSafe
    rw [if_pos hopen]
  · intro hl
    unfold sysStep
    dsimp only
    rw [hl]
    exact ⟨handleClose_total s.server c ws, rfl⟩
  · intro hl
    unfold sysStep
    dsimp only
    rw [hl]

/-! ## Heartbeat monitor -/

/-- Per-connection liveness state seen by the heartbeat timer (lines 135,
138-149): time of the last acknowledgment, whether the repeating timer is
still scheduled, whether the socket is open, the close code if the timer
closed it, and the number of probes sent so far. -/
structure HB where
  lastPing : Nat
  timerActive : Bool := true
  sockOpen : Bool := true
  closeCode : Option Nat := none
  pings : Nat := 0
deriving DecidableEq

/-- One timer callback at time `now` (lines 138-147): a cancelled timer no
longer fires; when no acknowledgment arrived within `heartbeatMs` the timer
is cancelled and the socket closed with code 1000 (only if still open, per
`closeSafe`); otherwise a probe is sent if the socket is open. -/
def hbTick (heartbeatMs now : Nat) (s : HB) : HB :=
  if s.timerActive = false then s
  else if heartbeatMs < now - s.lastPing then
    let s₁ := { s with timerActive := false }
    if s₁.sockOpen then { s₁ with sockOpen := false, closeCode := some 1000 } else s₁
  else if s.sockOpen then { s with pings := s.pings + 1 } else s

/-- The `pong` handler (line 149): record the acknowledgment time. -/
def hbPong (now : Nat) (s : HB) : HB := { s with lastPing := now }

/-- Run `k` timer callbacks; callback `j` (zero-based) fires at time
`t0 + (j+1) * half`, the timer period being `half = heartbeatMs / 2`. -/
def hbRun (heartbeatMs t0 half : Nat) (k : Nat) (s : HB) : HB :=
  match k with
  | 0 => s
  | j + 1 => hbTick heartbeatMs (t0 + (j + 1) * half) (hbRun heartbeatMs t0 half j s)

/-- While every elapsed tick is within `heartbeatMs` of the last
acknowledgment `L`, the timer only accumulates pings. -/
theorem hbRun_quiet (heartbeatMs t0 half L p : Nat) (j : Nat)
    (hj : ∀ i, i < j → t0 + (i + 1) * half ≤ L + heartbeatMs) :
    hbRun heartbeatMs t0 half j
        { lastPing := L, timerActive := true, sockOpen := true, closeCode := none, pings := p } =
      { lastPing := L, timerActive := true, sockOpen := true, closeCode := none,
        pings := p + j } := by
  induction j with
  | zero => rfl
  | succ n ih =>
    have hle : ∀ i, i < n → t0 + (i + 1) * half ≤ L + heartbeatMs :=
      fun i hi => hj i (Nat.lt_succ_of_lt hi)
    have hn := hj n (Nat.lt_succ_self n)
    unfold hbRun
    rw [ih hle]
    unfold hbTick
    have hcond : ¬ (heartbeatMs < t0 + (n + 1) * half - L) := by omega
    simp [hcond]
    omega

/-- C6: heartbeat behaviour.  Each live tick either closes a stale
connection with code 1000 and cancels the timer, or sends a probe to an
open socket; a pong records the acknowledgment time.  A connection whose
last acknowledgment was at time `L` and that never acknowledges again is
closed with 1000 at tick number `(L + heartbeatMs - t0) / half + 1`, whose
firing time is at most `L + heartbeatMs + half`, about one heartbeat
interval after `L`. -/
theorem heartbeat_monitor (heartbeatMs t0 L p : Nat)
    (hhalf : 0 < heartbeatMs / 2) (ht0 : t0 ≤ L) :
    (∀ (s : HB) (now : Nat), s.timerActive = true → heartbeatMs < now - s.lastPing →
      hbTick heartbeatMs now s =
        if s.sockOpen then
          { s with timerActive := false, sockOpen := false, closeCode := some 1000 }
        else { s with timerActive := false }) ∧
    (∀ (s : HB) (now : Nat), s.timerActive = true → ¬ heartbeatMs < now - s.lastPing →
      s.sockOpen = true → hbTick heartbeatMs now s = { s with pings := s.pings + 1 }) ∧
    (∀ (s : HB) (now : Nat), hbPong now s = { s with lastPing := now }) ∧
    (hbRun heartbeatMs t0 (heartbeatMs / 2)
        ((L + heartbeatMs - t0) / (heartbeatMs / 2) + 1)
        { lastPing := L, timerActive := true, sockOpen := true, closeCode := none,
          pings := p } =
      { lastPing := L, timerActive := false, sockOpen := false, closeCode := some 1000,
        pings := p + (L + heartbeatMs - t0) / (heartbeatMs / 2) }) ∧
    (t0 + ((L + heartbeatMs - t0) / (heartbeatMs / 2) + 1) * (heartbeatMs / 2) ≤
      L + heartbeatMs + heartbeatMs / 2) := by
  refine ⟨?_, ?_, ?_, ?_, ?_⟩
  · intro s now h1 h2
    unfold hbTick
    cases hso : s.sockOpen <;> simp [h1, h2, hso]
  · intro s now h1 h2 h3
    unfold hbTick
    simp [h1, h2, h3]
  · intro s now
    rfl
  · have e2 : (L + heartbeatMs - t0) % (heartbeatMs / 2) < heartbeatMs / 2 :=
      Nat.mod_lt _ hhalf
    obtain ⟨X, hX⟩ : ∃ X, X = (heartbeatMs / 2) * ((L + heartbeatMs - t0) / (heartbeatMs / 2)) :=
      ⟨_, rfl⟩
    have e1 : X + (L + heartbeatMs - t0) % (heartbeatMs / 2) = L + heartbeatMs - t0 := by
      rw [hX]
      exact Nat.div_add_mod _ _
    have e3 : ((L + heartbeatMs - t0) / (heartbeatMs / 2) + 1) * (heartbeatMs / 2) =
        X + heartbeatMs / 2 := by
      rw [hX]
      ring
    have hquiet := hbRun_quiet heartbeatMs t0 (heartbeatMs / 2) L p
      ((L + heartbeatMs - t0) / (heartbeatMs / 2))
      (by
        intro i hi
        have h1 : (i + 1) * (heartbeatMs / 2) ≤
            ((L + heartbeatMs - t0) / (heartbeatMs / 2)) * (heartbeatMs / 2) :=
          Nat.mul_le_mul_right _ (Nat.succ_le_of_lt hi)
        have h2 : ((L + heartbeatMs - t0) / (heartbeatMs / 2)) * (heartbeatMs / 2) = X := by
          rw [hX]
          ring
        omega)
    unfold hbRun
    rw [hquiet]
    unfold hbTick
    have hcond : heartbeatMs <
        t0 + ((L + heartbeatMs - t0) / (heartbeatMs / 2) + 1) * (heartbeatMs / 2) - L := by
      rw [e3]
      omega
    simp [hcond]
  · have e2 : (L + heartbeatMs - t0) % (heartbeatMs / 2) < heartbeatMs / 2 :=
      Nat.mod_lt _ hhalf
    obtain ⟨X, hX⟩ : ∃ X, X = (heartbeatMs / 2) * ((L + heartbeatMs - t0) / (heartbeatMs / 2)) :=
      ⟨_, rfl⟩
    have e1 : X + (L + heartbeatMs - t0) % (heartbeatMs / 2) = L + heartbeatMs - t0 := by
      rw [hX]
      exact Nat.div_add_mod _ _
    have e3 : ((L + heartbeatMs - t0) / (heartbeatMs / 2) + 1) * (heartbeatMs / 2) =
        X + heartbeatMs / 2 := by
      rw [hX]
      ring
    rw [e3]
    omega

/-! ## Concrete witnesses exercising the theorems above -/

/-- An auth message for identity `a` with a wrong response. -/
def badAuthData : Data :=
  { type := some "auth", agentId := some "a", challenge := [99],
    response := "bad", role := some "agent" }

/-- An explicitly tagged action message with both control fields. -/
def actionData : Data :=
  { type := some "action", steer := some 1, jump := some true }

/-- A message shape that is forwardable for no role. -/
def junkTypedData : Data :=
  { type := some "hello" }

/-- `sampleState` together with socket 2 admitted as the agent connection. -/
def sampleSys : Sys :=
  { server := sampleState, conns := [(2, sampleAgentConn)] }

theorem auth_failure_keeps_connection_witness :
    (handleMessage 25 65 sampleState { } 3 0 (some badAuthData) "w").2.2 =
        [Effect.sent 3 ServerMsg.authFailure] ∧
    (handleMessage 25 65 sampleState { } 3 0 (some badAuthData) "w").2.1.role = none := by
  have h := auth_failure_keeps_connection 25 65 sampleState { } 3 0 badAuthData "w"
    rfl rfl (fun id agent h1 h2 => by
      obtain rfl : id = "a" := (Option.some.inj h1).symm
      obtain rfl : agent = sampleAgent :=
        (Option.some.inj ((by rfl :
          mget sampleState.agents "a" = some sampleAgent).symm.trans h2)).symm
      decide)
  exact ⟨h.1, h.2.2.2.1⟩

theorem role_eviction_witness :
    (handleMessage 25 65 sampleState { } 3 0 (some authAgentData) "w").2.2 =
      [Effect.closed 2 4000, Effect.sent 3 (ServerMsg.authSuccess "w" Role.agent)] :=
  (role_eviction_and_guarded_detach 25 65 sampleState { } sampleAgentConn 2 3 0 "a"
    sampleAgent Role.agent authAgentData "w" rfl rfl rfl rfl (by decide) rfl rfl
    (by decide) (by decide) rfl rfl).1

theorem route_forwarding_witness :
    handleMessage 25 65 sampleState sampleAgentConn 2 0 (some actionData) "s" =
      (sampleState, { sampleAgentConn with rateN := sampleAgentConn.rateN + 1 },
        forwardTo sampleState sampleAgent.gameWs (ServerMsg.payload actionData)) :=
  (route_forwarding 25 65 sampleState sampleAgentConn 2 0 actionData "s" Role.agent "a"
    sampleAgent (by decide) rfl (by decide) rfl rfl).2.1 rfl rfl

theorem rate_limit_policy_witness :
    (handleMessage 25 65 sampleState { } 3 0 none "s").2.1.rateN = ({ } : Conn).rateN + 1 :=
  (rate_limit_policy 25 65 sampleState { } 3 0 none "s" Role.game (by decide)).1 rfl

theorem unauth_never_rate_dropped_witness :
    (handleMessage 25 65 sampleState { } 3 0 none "s").2.1.rateN =
      (if 1000 < 0 - sampleState.lastRateLimitReset then 0 else ({ } : Conn).rateN) + 1 :=
  (unauth_never_rate_dropped 25 65 sampleState { } 3 0 none "s" rfl).1

theorem authenticated_message_handling_witness :
    handleMessage 25 65 sampleState sampleGameConn 1 0 (some junkTypedData) "s" =
      (sampleState, { sampleGameConn with rateN := sampleGameConn.rateN + 1 }, []) :=
  (authenticated_message_handling 25 65 sampleState sampleGameConn 1 0 junkTypedData "s"
    Role.game (by decide) rfl (by decide)).1 (by decide) (by decide) (by decide)

theorem admission_control_witness :
    handleConnection 2 initialState 5 7 =
      ({ initialState with totalConnections := initialState.totalConnections + 1 },
        some { agentId := none, role := none, lastPing := 7, rateN := 0 }, []) ∧
    (sysStep 2 25 65 sampleSys (Ev.disconnect 2)).server.totalConnections =
        sampleSys.server.totalConnections - 1 :=
  ⟨(admission_control 2 25 65 initialState 5 7 [] sampleSys sampleAgentConn).2.1
      (by decide),
    ((admission_control 2 25 65 sampleState 2 0 [] sampleSys sampleAgentConn).2.2.2.1
      rfl).1⟩

theorem heartbeat_monitor_witness :
    hbRun 30000 0 (30000 / 2) ((0 + 30000 - 0) / (30000 / 2) + 1)
        { lastPing := 0, timerActive := true, sockOpen := true, closeCode := none,
          pings := 0 } =
      { lastPing := 0, timerActive := false, sockOpen := false, closeCode := some 1000,
        pings := 0 + (0 + 30000 - 0) / (30000 / 2) } :=
  (heartbeat_monitor 30000 0 0 0 (by decide) (by decide)).2.2.2.1

end Scape
